import Mathlib

/-
  Shallow embedding of src/Loan_Amortization_Calculator.py.

  Python floats are modelled by exact rationals (ℚ); `round(x, 10)` is
  modelled by `round10`, decimal rounding to 10 fractional digits with
  ties to even (Python's rounding mode); a raised ValueError / TypeError
  is modelled by `Except.error`.
-/

/-- One row of the amortization schedule: the dict
`{"month": m, "payment": ..., "interest": ..., "principal": ..., "balance": ...}`
appended by `amortization_schedule` (lines 44-50 of the source). -/
structure Row where
  month : ℤ
  payment : ℚ
  interest : ℚ
  principal : ℚ
  balance : ℚ
  deriving DecidableEq

/-- Round-half-to-even to an integer, the rounding mode of Python's `round`. -/
def rne (q : ℚ) : ℤ :=
  if q - ⌊q⌋ < 1 / 2 then ⌊q⌋
  else if 1 / 2 < q - ⌊q⌋ then ⌊q⌋ + 1
  else if ⌊q⌋ % 2 = 0 then ⌊q⌋
  else ⌊q⌋ + 1

/-- Python's `round(x, 10)`: round to 10 decimal digits, ties to even. -/
def round10 (q : ℚ) : ℚ :=
  (rne (q * 10 ^ 10) : ℚ) / 10 ^ 10

/-- The function `monthly_payment(principal, annual_rate_percent, n_months)`
(source lines 12-27).  `raise ValueError` is modelled as `Except.error`. -/
def monthly_payment (principal annual_rate_percent : ℚ) (n_months : ℤ) :
    Except String ℚ :=
  if n_months ≤ 0 then Except.error "n_months must be > 0"
  else if principal = 0 then Except.ok 0
  else
    let monthly_rate := annual_rate_percent / 100 / 12
    if monthly_rate = 0 then Except.ok (principal / (n_months : ℚ))
    else
      let r := monthly_rate
      let denom := (1 + r) ^ n_months.toNat - 1
      Except.ok (principal * r * (1 + r) ^ n_months.toNat / denom)

/-- The loop body of `amortization_schedule` (source lines 36-50): one
iteration per month, carrying the (mutable) `payment` and `balance`
locals through the recursion.  `k` counts the remaining iterations and
`m` is the 1-based month index of the next row. -/
def scheduleAux (r : ℚ) : ℕ → ℤ → ℚ → ℚ → List Row
  | 0, _, _, _ => []
  | Nat.succ k, m, payment, balance =>
    let interest := balance * r
    let principal_paid0 := payment - interest
    let principal_paid := if principal_paid0 > balance then balance else principal_paid0
    let payment2 := if principal_paid0 > balance then interest + principal_paid else payment
    let newBalance := balance - principal_paid
    ⟨m, round10 payment2, round10 interest, round10 principal_paid,
      round10 (max newBalance 0)⟩ ::
      scheduleAux r k (m + 1) payment2 newBalance

/-- The function `amortization_schedule(principal, annual_rate_percent, n_months)`
(source lines 30-51): computes the payment (propagating its error), then
runs the loop `for m in range(1, n_months + 1)` starting from
`balance = principal`. -/
def amortization_schedule (principal annual_rate_percent : ℚ) (n_months : ℤ) :
    Except String (List Row) :=
  (monthly_payment principal annual_rate_percent n_months).map fun payment =>
    scheduleAux (annual_rate_percent / 100 / 12) n_months.toNat 1 payment principal

/-- The month-count selection of `main` (source lines 90-93): `if args.months:`
treats both a missing and a zero `--months` as falsy and falls back to
`int(round(args.years * 12))`.  The `--years`/`--months` pair comes from a
required mutually exclusive argparse group (lines 79-81), so whenever
`--months` is supplied, `args.years` is `None` and `None * 12` raises a
TypeError, modelled as `Except.error "TypeError"`.  Python's `round` with no
digit count is round-half-to-even, modelled by `rne`. -/
def select_n_months (months : Option ℤ) (years : Option ℚ) : Except String ℤ :=
  match months with
  | some m =>
      if m ≠ 0 then Except.ok m
      else
        match years with
        | some y => Except.ok (rne (y * 12))
        | none => Except.error "TypeError"
  | none =>
      match years with
      | some y => Except.ok (rne (y * 12))
      | none => Except.error "TypeError"

/-- The exact (unrounded) running balance of the schedule loop when the
terminal clamp never fires: `ebal r pay bal j` is the balance after `j`
iterations starting from `bal`, each iteration doing
`balance = balance * (1 + r) - pay`. -/
def ebal (r pay bal : ℚ) : ℕ → ℚ
  | 0 => bal
  | Nat.succ j => ebal r pay bal j * (1 + r) - pay

/-- Sum of the `principal` column of a schedule result, used to state the
principal-conservation property on the `Except` value directly. -/
def principalSum (e : Except String (List Row)) : Except String ℚ :=
  e.map fun rows => (rows.map Row.principal).sum

/-- The rounded integer never lies below the floor. -/
lemma floor_le_rne (q : ℚ) : ⌊q⌋ ≤ rne q := by
  unfold rne; split_ifs <;> omega

/-- The rounded integer never exceeds the floor plus one. -/
lemma rne_le_floor_add_one (q : ℚ) : rne q ≤ ⌊q⌋ + 1 := by
  unfold rne; split_ifs <;> omega

/-- Round-half-to-even is within one half of its argument. -/
lemma rne_sub_abs (q : ℚ) : |(rne q : ℚ) - q| ≤ 1 / 2 := by
  have h1 : ((⌊q⌋ : ℤ) : ℚ) ≤ q := Int.floor_le q
  have h2 : q < ⌊q⌋ + 1 := Int.lt_floor_add_one q
  unfold rne
  split_ifs with ha hb hc <;> (rw [abs_le]; constructor <;> push_cast <;> linarith)

/-- Round-half-to-even is monotone. -/
lemma rne_mono {a b : ℚ} (hab : a ≤ b) : rne a ≤ rne b := by
  rcases eq_or_lt_of_le (Int.floor_mono hab) with heq | hlt
  · unfold rne
    rw [← heq]
    split_ifs <;> first | omega | (exfalso; linarith)
  · have l1 := rne_le_floor_add_one a
    have l2 := floor_le_rne b
    omega

/-- Decimal rounding to 10 digits is monotone. -/
lemma round10_mono {a b : ℚ} (hab : a ≤ b) : round10 a ≤ round10 b := by
  unfold round10
  have h : rne (a * 10 ^ 10) ≤ rne (b * 10 ^ 10) :=
    rne_mono (mul_le_mul_of_nonneg_right hab (by norm_num))
  have h2 : ((rne (a * 10 ^ 10) : ℤ) : ℚ) ≤ ((rne (b * 10 ^ 10) : ℤ) : ℚ) := by
    exact_mod_cast h
  gcongr

/-- Decimal rounding to 10 digits moves its argument by at most half an ulp,
five units in the eleventh decimal place. -/
lemma round10_sub_abs (q : ℚ) : |round10 q - q| ≤ 1 / 20000000000 := by
  have h := rne_sub_abs (q * 10 ^ 10)
  have key : round10 q - q = ((rne (q * 10 ^ 10) : ℚ) - q * 10 ^ 10) / 10 ^ 10 := by
    unfold round10; ring
  rw [key, abs_div, abs_of_pos (by norm_num : (0 : ℚ) < 10 ^ 10)]
  rw [div_le_iff₀ (by norm_num : (0 : ℚ) < 10 ^ 10)]
  calc |(rne (q * 10 ^ 10) : ℚ) - q * 10 ^ 10| ≤ 1 / 2 := h
    _ ≤ 1 / 20000000000 * 10 ^ 10 := by norm_num

/-- Rounding fixes zero. -/
lemma round10_zero : round10 0 = 0 := by norm_num [round10, rne]

/-- Rounding preserves non-negativity. -/
lemma round10_nonneg {q : ℚ} (h : 0 ≤ q) : 0 ≤ round10 q :=
  round10_zero ▸ round10_mono h

/-- Unfolding equation for one iteration of the schedule loop, with the two
branches of the terminal-correction clamp spelled out. -/
lemma scheduleAux_succ (r : ℚ) (k : ℕ) (m : ℤ) (pay bal : ℚ) :
    scheduleAux r (k + 1) m pay bal =
      if pay - bal * r > bal then
        ⟨m, round10 (bal * r + bal), round10 (bal * r), round10 bal,
          round10 (max (bal - bal) 0)⟩ ::
          scheduleAux r k (m + 1) (bal * r + bal) (bal - bal)
      else
        ⟨m, round10 pay, round10 (bal * r), round10 (pay - bal * r),
          round10 (max (bal - (pay - bal * r)) 0)⟩ ::
          scheduleAux r k (m + 1) pay (bal - (pay - bal * r)) := by
  simp only [scheduleAux]
  split_ifs <;> rfl

/-- The loop always emits exactly as many rows as it has iterations. -/
lemma scheduleAux_length (r : ℚ) :
    ∀ (k : ℕ) (m : ℤ) (pay bal : ℚ), (scheduleAux r k m pay bal).length = k := by
  intro k
  induction k with
  | zero => intro m pay bal; rfl
  | succ k ih =>
    intro m pay bal
    rw [scheduleAux_succ]
    split_ifs <;> simp [ih]

/-- Advancing the exact balance one step commutes with starting one step later. -/
lemma ebal_shift (r pay bal : ℚ) : ∀ j : ℕ,
    ebal r pay bal (j + 1) = ebal r pay (bal * (1 + r) - pay) j := by
  intro j
  induction j with
  | zero => rfl
  | succ j ih =>
    show ebal r pay bal (j + 1) * (1 + r) - pay = _
    rw [ih]; rfl

/-- As long as the clamp condition never fires, the schedule loop emits the
rounded exact quantities: payment `pay`, interest `ebal j * r`, principal
`pay - ebal j * r` and balance `ebal (j+1)` in row `j`. -/
lemma scheduleAux_noClamp (r pay : ℚ) :
    ∀ (k : ℕ) (m : ℤ) (bal : ℚ),
      (∀ j, j < k → pay - ebal r pay bal j * r ≤ ebal r pay bal j) →
      scheduleAux r k m pay bal =
        (List.range k).map fun j =>
          ⟨m + (j : ℤ), round10 pay, round10 (ebal r pay bal j * r),
            round10 (pay - ebal r pay bal j * r),
            round10 (max (ebal r pay bal (j + 1)) 0)⟩ := by
  intro k
  induction k with
  | zero => intro m bal _; rfl
  | succ k ih =>
    intro m bal h
    have h0 : pay - bal * r ≤ bal := by
      have := h 0 (Nat.succ_pos k)
      simpa [ebal] using this
    have hb : bal - (pay - bal * r) = bal * (1 + r) - pay := by ring
    rw [scheduleAux_succ, if_neg (not_lt.2 h0), hb, List.range_succ_eq_map, List.map_cons]
    congr 1
    · simp [ebal]
    · rw [ih (m + 1) (bal * (1 + r) - pay) ?_]
      · rw [List.map_map]
        apply List.map_congr_left
        intro j hj
        simp only [Function.comp_apply, ← ebal_shift]
        congr 1
        push_cast
        ring
      · intro j hj
        rw [← ebal_shift]
        exact h (j + 1) (Nat.succ_lt_succ hj)

/-- Exact balances of the interest-free loan: straight-line decrease. -/
lemma ebal_rate_zero (q P : ℚ) : ∀ j : ℕ, ebal 0 q P j = P - j * q := by
  intro j
  induction j with
  | zero => simp [ebal]
  | succ j ih =>
    show ebal 0 q P j * (1 + 0) - q = _
    rw [ih]; push_cast; ring

/-- Exact balances under the annuity payment: the closed geometric form. -/
lemma ebal_rate_pos (r P : ℚ) (n : ℕ) (hden : (1 + r) ^ n - 1 ≠ 0) :
    ∀ j : ℕ, ebal r (P * r * (1 + r) ^ n / ((1 + r) ^ n - 1)) P j
      = P * ((1 + r) ^ n - (1 + r) ^ j) / ((1 + r) ^ n - 1) := by
  intro j
  induction j with
  | zero =>
    show P = _
    field_simp
  | succ j ih =>
    show ebal r _ P j * (1 + r) - _ = _
    rw [ih]
    field_simp
    ring

/-- For an interest-free loan the exact balances are non-negative,
non-increasing, and reach zero exactly at the last period. -/
lemma pack_rate_zero (P : ℚ) (k : ℕ) (hP : 0 ≤ P) (hk : 0 < k) :
    (∀ j, j ≤ k → 0 ≤ ebal 0 (P / (k : ℚ)) P j) ∧
    (∀ j, j < k → ebal 0 (P / (k : ℚ)) P (j + 1) ≤ ebal 0 (P / (k : ℚ)) P j) ∧
    ebal 0 (P / (k : ℚ)) P k = 0 := by
  have hk0 : ((k : ℚ)) ≠ 0 := Nat.cast_ne_zero.2 hk.ne'
  have hq : 0 ≤ P / (k : ℚ) := div_nonneg hP (Nat.cast_nonneg k)
  refine ⟨?_, ?_, ?_⟩
  · intro j hj
    rw [ebal_rate_zero]
    have h1 : (j : ℚ) * (P / k) ≤ (k : ℚ) * (P / k) :=
      mul_le_mul_of_nonneg_right (by exact_mod_cast hj) hq
    have h2 : (k : ℚ) * (P / k) = P := by field_simp
    linarith
  · intro j hj
    rw [ebal_rate_zero, ebal_rate_zero]
    push_cast
    linarith
  · rw [ebal_rate_zero]
    field_simp

/-- Under the annuity payment with a positive rate the exact balances are
non-negative, non-increasing, and reach zero exactly at the last period. -/
lemma pack_rate_pos (P r : ℚ) (k : ℕ) (hP : 0 ≤ P) (hr : 0 < r) (hk : 0 < k) :
    (∀ j, j ≤ k → 0 ≤ ebal r (P * r * (1 + r) ^ k / ((1 + r) ^ k - 1)) P j) ∧
    (∀ j, j < k → ebal r (P * r * (1 + r) ^ k / ((1 + r) ^ k - 1)) P (j + 1)
        ≤ ebal r (P * r * (1 + r) ^ k / ((1 + r) ^ k - 1)) P j) ∧
    ebal r (P * r * (1 + r) ^ k / ((1 + r) ^ k - 1)) P k = 0 := by
  have h1r : (1 : ℚ) < 1 + r := by linarith
  have hA : (1 : ℚ) < (1 + r) ^ k := one_lt_pow₀ h1r hk.ne'
  have hden : (0 : ℚ) < (1 + r) ^ k - 1 := by linarith
  refine ⟨?_, ?_, ?_⟩
  · intro j hj
    rw [ebal_rate_pos r P k hden.ne']
    have hpow : (1 + r) ^ j ≤ (1 + r) ^ k := pow_le_pow_right₀ h1r.le hj
    exact div_nonneg (mul_nonneg hP (by linarith)) hden.le
  · intro j hj
    rw [ebal_rate_pos r P k hden.ne', ebal_rate_pos r P k hden.ne']
    have hpow : (1 + r) ^ j ≤ (1 + r) ^ (j + 1) := pow_le_pow_right₀ h1r.le (Nat.le_succ j)
    have hnum : P * ((1 + r) ^ k - (1 + r) ^ (j + 1)) ≤ P * ((1 + r) ^ k - (1 + r) ^ j) :=
      mul_le_mul_of_nonneg_left (by linarith) hP
    exact (div_le_div_iff_of_pos_right hden).2 hnum
  · rw [ebal_rate_pos r P k hden.ne']
    simp

/-- Telescoping sum of consecutive differences over an initial range. -/
lemma sum_telescope_range (b : ℕ → ℚ) : ∀ k : ℕ,
    ((List.range k).map (fun j => b j - b (j + 1))).sum = b 0 - b k := by
  intro k
  induction k with
  | zero => simp
  | succ k ih =>
    rw [List.range_succ, List.map_append, List.sum_append, ih]
    simp

/-- Summing rounded values differs from summing exact values by at most half
an ulp per term. -/
lemma sum_map_round10_near (g : ℕ → ℚ) : ∀ k : ℕ,
    |((List.range k).map (fun j => round10 (g j))).sum
      - ((List.range k).map g).sum| ≤ (k : ℚ) / 20000000000 := by
  intro k
  induction k with
  | zero => simp
  | succ k ih =>
    rw [List.range_succ, List.map_append, List.sum_append,
      List.map_append, List.sum_append]
    simp only [List.map_cons, List.map_nil, List.sum_cons, List.sum_nil, add_zero]
    have h := round10_sub_abs (g k)
    rw [abs_le] at ih h ⊢
    push_cast
    constructor <;> linarith

/-- Once the running balance is zero and the carried payment is non-negative,
every further row the loop emits is all-zero. -/
lemma scheduleAux_zero_balance (r : ℚ) :
    ∀ (k : ℕ) (pay : ℚ), 0 ≤ pay → ∀ (m : ℤ), ∀ row ∈ scheduleAux r k m pay 0,
      row.payment = 0 ∧ row.interest = 0 ∧ row.principal = 0 ∧ row.balance = 0 := by
  intro k
  induction k with
  | zero => intro pay _ m row hrow; cases hrow
  | succ k ih =>
    intro pay hpay m row hrow
    rw [scheduleAux_succ] at hrow
    by_cases hc : pay - 0 * r > 0
    · rw [if_pos (by simpa using hc)] at hrow
      rcases List.mem_cons.1 hrow with heq | htail
      · subst heq
        refine ⟨?_, ?_, ?_, ?_⟩ <;> simp [round10_zero]
      · have h0 : (0 : ℚ) * r + 0 = 0 := by ring
        rw [h0] at htail
        have hsub : (0 : ℚ) - 0 = 0 := by ring
        rw [hsub] at htail
        exact ih 0 le_rfl (m + 1) row htail
    · rw [if_neg (by simpa using hc)] at hrow
      have hpay0 : pay = 0 := le_antisymm (by simpa using hc) hpay
      subst hpay0
      rcases List.mem_cons.1 hrow with heq | htail
      · subst heq
        refine ⟨?_, ?_, ?_, ?_⟩ <;> simp [round10_zero]
      · have hsub : (0 : ℚ) - (0 - 0 * r) = 0 := by ring
        rw [hsub] at htail
        exact ih 0 le_rfl (m + 1) row htail

/-- Every emitted row splits its payment exactly (before rounding) into
interest plus principal, so the rounded fields agree within three half-ulps. -/
lemma scheduleAux_split (r : ℚ) :
    ∀ (k : ℕ) (m : ℤ) (pay bal : ℚ), ∀ row ∈ scheduleAux r k m pay bal,
      |row.interest + row.principal - row.payment| ≤ 3 / 20000000000 := by
  intro k
  induction k with
  | zero => intro m pay bal row hrow; cases hrow
  | succ k ih =>
    intro m pay bal row hrow
    rw [scheduleAux_succ] at hrow
    have key : ∀ i p s : ℚ, i + p = s →
        |round10 i + round10 p - round10 s| ≤ 3 / 20000000000 := by
      intro i p s hs
      have h1 := round10_sub_abs i
      have h2 := round10_sub_abs p
      have h3 := round10_sub_abs s
      rw [abs_le] at h1 h2 h3 ⊢
      constructor <;> linarith
    by_cases hc : pay - bal * r > bal
    · rw [if_pos hc] at hrow
      rcases List.mem_cons.1 hrow with heq | htail
      · subst heq
        exact key _ _ _ (by ring)
      · exact ih (m + 1) (bal * r + bal) (bal - bal) row htail
    · rw [if_neg hc] at hrow
      rcases List.mem_cons.1 hrow with heq | htail
      · subst heq
        exact key _ _ _ (by ring)
      · exact ih (m + 1) pay (bal - (pay - bal * r)) row htail

/-- With a zero annual rate the payment branch returns `principal / n_months`
(also when the principal is zero, where both branches agree). -/
lemma monthly_payment_rate_zero (P : ℚ) (n : ℤ) (hn : 0 < n) :
    monthly_payment P 0 n = Except.ok (P / (n : ℚ)) := by
  unfold monthly_payment
  rw [if_neg (not_le.2 hn)]
  by_cases hP : P = 0
  · subst hP
    simp
  · rw [if_neg hP]
    norm_num

/-- With a positive annual rate the payment is the annuity formula value
(also when the principal is zero, where the formula collapses to zero). -/
lemma monthly_payment_rate_pos (P a : ℚ) (n : ℤ) (hn : 0 < n) (ha : 0 < a) :
    monthly_payment P a n = Except.ok
      (P * (a / 100 / 12) * (1 + a / 100 / 12) ^ n.toNat /
        ((1 + a / 100 / 12) ^ n.toNat - 1)) := by
  unfold monthly_payment
  rw [if_neg (not_le.2 hn)]
  have hr : a / 100 / 12 ≠ 0 := by positivity
  by_cases hP : P = 0
  · subst hP
    simp
  · rw [if_neg hP]
    simp only [if_neg hr]

/-- Unfolding a successful payment computation inside the schedule. -/
lemma amortization_schedule_ok (P a : ℚ) (n : ℤ) (pay : ℚ)
    (h : monthly_payment P a n = Except.ok pay) :
    amortization_schedule P a n =
      Except.ok (scheduleAux (a / 100 / 12) n.toNat 1 pay P) := by
  unfold amortization_schedule
  rw [h]
  rfl

/-- Master property bundle for the schedule loop: whenever the exact balances
are non-negative, non-increasing and reach zero at the end, the emitted rows
number `k`, their stored balances are non-increasing, non-negative and end at
zero, and their stored principal portions sum to the initial balance within
half an ulp per row. -/
lemma schedule_master (r pay P : ℚ) (k : ℕ)
    (hnn : ∀ j, j ≤ k → 0 ≤ ebal r pay P j)
    (hdec : ∀ j, j < k → ebal r pay P (j + 1) ≤ ebal r pay P j)
    (hfin : ebal r pay P k = 0) :
    (scheduleAux r k 1 pay P).length = k ∧
    List.Chain' (fun x y => y.balance ≤ x.balance) (scheduleAux r k 1 pay P) ∧
    (∀ row ∈ scheduleAux r k 1 pay P, 0 ≤ row.balance) ∧
    (0 < k → ((scheduleAux r k 1 pay P).map Row.balance).getLast? = some 0) ∧
    |((scheduleAux r k 1 pay P).map Row.principal).sum - P| ≤ (k : ℚ) / 20000000000 := by
  have hnc : ∀ j, j < k → pay - ebal r pay P j * r ≤ ebal r pay P j := by
    intro j hj
    have h1 : 0 ≤ ebal r pay P (j + 1) := hnn (j + 1) hj
    have h2 : ebal r pay P (j + 1) = ebal r pay P j * (1 + r) - pay := rfl
    have h3 : ebal r pay P j * (1 + r) = ebal r pay P j + ebal r pay P j * r := by ring
    linarith [h2 ▸ h1]
  rw [scheduleAux_noClamp r pay k 1 P hnc]
  refine ⟨?_, ?_, ?_, ?_, ?_⟩
  · simp
  · rw [List.chain'_map]
    cases k with
    | zero => simp
    | succ k' =>
      rw [List.chain'_range_succ]
      intro i hi
      exact round10_mono (max_le_max (hdec (i + 1) (Nat.succ_lt_succ hi)) le_rfl)
  · intro row hrow
    rw [List.mem_map] at hrow
    obtain ⟨j, hj, rfl⟩ := hrow
    exact round10_nonneg (le_max_right _ 0)
  · intro hk
    obtain ⟨k', rfl⟩ := Nat.exists_eq_succ_of_ne_zero hk.ne'
    rw [List.map_map, List.range_succ, List.map_append]
    simp only [List.map_cons, List.map_nil]
    rw [List.getLast?_concat]
    simp [Function.comp, hfin, round10_zero]
  · rw [List.map_map]
    have hmap : (List.range k).map
          (Row.principal ∘ fun (j : ℕ) =>
            (⟨1 + (j : ℤ), round10 pay, round10 (ebal r pay P j * r),
              round10 (pay - ebal r pay P j * r),
              round10 (max (ebal r pay P (j + 1)) 0)⟩ : Row)) =
        (List.range k).map
          (fun j => round10 (ebal r pay P j - ebal r pay P (j + 1))) := by
      apply List.map_congr_left
      intro j hj
      show round10 (pay - ebal r pay P j * r) = _
      congr 1
      show _ = _ - (ebal r pay P j * (1 + r) - pay)
      ring
    rw [hmap]
    have hnear := sum_map_round10_near
      (fun j => ebal r pay P j - ebal r pay P (j + 1)) k
    have htel := sum_telescope_range (ebal r pay P) k
    rw [htel] at hnear
    have hP0 : ebal r pay P 0 = P := rfl
    rw [hP0, hfin, sub_zero] at hnear
    exact hnear

/-- C1: for every principal and annual rate, calling `monthly_payment` or
`amortization_schedule` with a zero or negative number of periods yields the
InvalidTerm `ValueError`, and on this failure no schedule rows are produced. -/
theorem C1_invalid_term (p a : ℚ) (n : ℤ) (hn : n ≤ 0) :
    monthly_payment p a n = Except.error "n_months must be > 0" ∧
    amortization_schedule p a n = Except.error "n_months must be > 0" ∧
    ∀ rows : List Row, amortization_schedule p a n ≠ Except.ok rows := by
  have h1 : monthly_payment p a n = Except.error "n_months must be > 0" := by
    unfold monthly_payment
    rw [if_pos hn]
  have h2 : amortization_schedule p a n = Except.error "n_months must be > 0" := by
    unfold amortization_schedule
    rw [h1]
    rfl
  refine ⟨h1, h2, ?_⟩
  intro rows hc
  rw [h2] at hc
  cases hc

/-- Witness for C1 at a concrete negative term. -/
theorem C1_witness :
    monthly_payment 100 5 (-3) = Except.error "n_months must be > 0" ∧
    amortization_schedule 100 5 (-3) = Except.error "n_months must be > 0" :=
  ⟨(C1_invalid_term 100 5 (-3) (by norm_num)).1,
   (C1_invalid_term 100 5 (-3) (by norm_num)).2.1⟩

/-- C3: with a positive periodic rate, `monthly_payment` returns the
closed-form annuity value, hence agrees with it to within 1e-9 relative
error. -/
theorem C3_annuity_formula (P a : ℚ) (n : ℤ) (v : ℚ) (hP : 0 < P) (hn : 0 < n)
    (hr : 0 < a / 100 / 12) (hv : monthly_payment P a n = Except.ok v) :
    |v - P * (a / 100 / 12) * (1 + a / 100 / 12) ^ n.toNat /
        ((1 + a / 100 / 12) ^ n.toNat - 1)| ≤
      1 / 1000000000 *
        |P * (a / 100 / 12) * (1 + a / 100 / 12) ^ n.toNat /
          ((1 + a / 100 / 12) ^ n.toNat - 1)| := by
  have ha : 0 < a := by
    have h := mul_pos hr (by norm_num : (0 : ℚ) < 1200)
    have he : a / 100 / 12 * 1200 = a := by ring
    linarith [he ▸ h]
  rw [monthly_payment_rate_pos P a n hn ha] at hv
  simp only [Except.ok.injEq] at hv
  subst hv
  simp only [sub_self, abs_zero]
  positivity

/-- Witness for C3: a one-month loan of 100 at 12 percent pays 101. -/
theorem C3_witness :
    |(101 : ℚ) - 100 * (12 / 100 / 12) * (1 + 12 / 100 / 12) ^ (1 : ℤ).toNat /
        ((1 + 12 / 100 / 12) ^ (1 : ℤ).toNat - 1)| ≤
      1 / 1000000000 *
        |100 * (12 / 100 / 12) * (1 + 12 / 100 / 12) ^ (1 : ℤ).toNat /
          ((1 + 12 / 100 / 12) ^ (1 : ℤ).toNat - 1)| :=
  C3_annuity_formula 100 12 1 101 (by norm_num) (by norm_num) (by norm_num)
    (by norm_num [monthly_payment])

/-- C4: with a zero annual rate (so a zero periodic rate) and positive
principal, `monthly_payment` takes the straight-line branch and returns
`principal / termPeriods`. -/
theorem C4_zero_rate (P a : ℚ) (n : ℤ) (v : ℚ) (hP : 0 < P) (ha : a = 0)
    (hn : 0 < n) (hv : monthly_payment P a n = Except.ok v) : v = P / (n : ℚ) := by
  subst ha
  rw [monthly_payment_rate_zero P n hn] at hv
  simp only [Except.ok.injEq] at hv
  exact hv.symm

/-- Witness for C4: a four-month interest-free loan of 10 pays 5/2 a month. -/
theorem C4_witness : (5 / 2 : ℚ) = 10 / ((4 : ℤ) : ℚ) :=
  C4_zero_rate 10 0 4 (5 / 2) (by norm_num) rfl (by norm_num)
    (by norm_num [monthly_payment])

/-- C7: a zero principal yields a zero payment and a schedule of exactly
`termPeriods` all-zero rows. -/
theorem C7_zero_principal (a : ℚ) (n : ℤ) (ha : 0 ≤ a) (hn : 0 < n) :
    monthly_payment 0 a n = Except.ok 0 ∧
    ∀ rows : List Row, amortization_schedule 0 a n = Except.ok rows →
      (rows.length : ℤ) = n ∧
      ∀ row ∈ rows, row.payment = 0 ∧ row.interest = 0 ∧
        row.principal = 0 ∧ row.balance = 0 := by
  have hmp : monthly_payment 0 a n = Except.ok 0 := by
    unfold monthly_payment
    rw [if_neg (not_le.2 hn), if_pos rfl]
  refine ⟨hmp, ?_⟩
  intro rows hrows
  rw [amortization_schedule_ok 0 a n 0 hmp] at hrows
  simp only [Except.ok.injEq] at hrows
  subst hrows
  constructor
  · rw [scheduleAux_length]
    exact Int.toNat_of_nonneg hn.le
  · intro row hrow
    exact scheduleAux_zero_balance (a / 100 / 12) n.toNat 0 le_rfl 1 row hrow

/-- Witness for C7 at rate 5 and three periods. -/
theorem C7_witness :
    monthly_payment 0 5 3 = Except.ok 0 ∧
    (([⟨1, 0, 0, 0, 0⟩, ⟨2, 0, 0, 0, 0⟩, ⟨3, 0, 0, 0, 0⟩] : List Row).length : ℤ) = 3 :=
  ⟨(C7_zero_principal 5 3 (by norm_num) (by norm_num)).1,
   ((C7_zero_principal 5 3 (by norm_num) (by norm_num)).2 _
     (by norm_num [amortization_schedule, monthly_payment, scheduleAux, round10,
       rne, Except.map])).1⟩

/-- C8: the schedule computation is a pure function of its three inputs, so
two invocations with identical inputs return identical schedules; the shallow
embedding has no state it could read or write besides its locals. -/
theorem C8_deterministic (p a p2 a2 : ℚ) (n n2 : ℤ)
    (hp : p = p2) (ha : a = a2) (hn : n = n2) :
    amortization_schedule p a n = amortization_schedule p2 a2 n2 := by
  subst hp
  subst ha
  subst hn
  rfl

/-- Witness for C8 at a concrete input. -/
theorem C8_witness : amortization_schedule 1000 7 12 = amortization_schedule 1000 7 12 :=
  C8_deterministic 1000 7 1000 7 12 12 rfl rfl rfl

/-- C9 counterexample: with `--months 0` the month selection of `main` does
not produce a month count at all; it fails (argparse's mutually exclusive
group means `--years` is absent, and the falsy fallback then evaluates
`None * 12`). -/
theorem C9_counterexample : (select_n_months (some 0) none).isOk = false := rfl

/-- C9 amended: `main` treats a supplied `--months 0` as falsy and takes the
years-based branch, but since `--years` is `None` under the mutually
exclusive group that branch raises a TypeError rather than computing a month
count; a non-zero `--months` is used directly. -/
theorem C9_months_zero_fallback :
    select_n_months (some 0) none = Except.error "TypeError" ∧
    select_n_months (some 2) none = Except.ok 2 := by
  constructor
  · rfl
  · norm_num [select_n_months]

/-- C10: once the terminal-correction clamp fires, the mutated payment
persists, the balance is exactly zero, and every later row is all-zero. -/
theorem C10_clamp_zeroes_tail (r pay bal : ℚ) (k : ℕ) (m : ℤ)
    (hr : 0 ≤ r) (hbal : 0 ≤ bal) (hclamp : pay - bal * r > bal) :
    ∀ row ∈ (scheduleAux r (k + 1) m pay bal).tail,
      row.payment = 0 ∧ row.interest = 0 ∧ row.principal = 0 ∧ row.balance = 0 := by
  intro row hrow
  rw [scheduleAux_succ, if_pos hclamp] at hrow
  simp only [List.tail_cons] at hrow
  rw [sub_self bal] at hrow
  exact scheduleAux_zero_balance r k (bal * r + bal)
    (add_nonneg (mul_nonneg hbal hr) hbal) (m + 1) row hrow

/-- Witness for C10: with rate 0, payment 2 and balance 1 the clamp fires in
the first of three periods and the second row is all-zero. -/
theorem C10_witness :
    (⟨2, 0, 0, 0, 0⟩ : Row).payment = 0 ∧ (⟨2, 0, 0, 0, 0⟩ : Row).interest = 0 ∧
    (⟨2, 0, 0, 0, 0⟩ : Row).principal = 0 ∧ (⟨2, 0, 0, 0, 0⟩ : Row).balance = 0 :=
  C10_clamp_zeroes_tail 0 2 1 2 1 (by norm_num) (by norm_num) (by norm_num)
    ⟨2, 0, 0, 0, 0⟩ (by norm_num [scheduleAux, round10, rne])

/-- A successful schedule for valid terms has the full property bundle:
row count, monotone non-negative stored balances ending at zero, and
principal portions summing to the principal within half an ulp per row. -/
lemma schedule_ok_props (P a : ℚ) (n : ℤ) (rows : List Row)
    (hP : 0 ≤ P) (ha : 0 ≤ a) (hn : 0 < n)
    (hrows : amortization_schedule P a n = Except.ok rows) :
    (rows.length : ℤ) = n ∧
    List.Chain' (fun x y => y.balance ≤ x.balance) rows ∧
    (∀ row ∈ rows, 0 ≤ row.balance) ∧
    (rows.map Row.balance).getLast? = some 0 ∧
    |(rows.map Row.principal).sum - P| ≤ (n : ℚ) / 20000000000 := by
  have hkpos : 0 < n.toNat := by omega
  have hkn : ((n.toNat : ℕ) : ℤ) = n := Int.toNat_of_nonneg hn.le
  have hkq : ((n : ℤ) : ℚ) = ((n.toNat : ℕ) : ℚ) := by exact_mod_cast hkn.symm
  rcases eq_or_lt_of_le ha with ha0 | hapos
  · rw [← ha0] at hrows
    have hmp := monthly_payment_rate_zero P n hn
    rw [amortization_schedule_ok P 0 n _ hmp] at hrows
    simp only [Except.ok.injEq] at hrows
    subst hrows
    have e1 : (0 : ℚ) / 100 / 12 = 0 := by norm_num
    rw [e1, hkq]
    obtain ⟨hnn, hdec, hfin⟩ := pack_rate_zero P n.toNat hP hkpos
    have H := schedule_master 0 (P / ((n.toNat : ℕ) : ℚ)) P n.toNat hnn hdec hfin
    exact ⟨by rw [scheduleAux_length]; exact hkn,
      H.2.1, H.2.2.1, H.2.2.2.1 hkpos, H.2.2.2.2⟩
  · have hr : 0 < a / 100 / 12 := by positivity
    have hmp := monthly_payment_rate_pos P a n hn hapos
    rw [amortization_schedule_ok P a n _ hmp] at hrows
    simp only [Except.ok.injEq] at hrows
    subst hrows
    rw [hkq]
    obtain ⟨hnn, hdec, hfin⟩ := pack_rate_pos P (a / 100 / 12) n.toNat hP hr hkpos
    have H := schedule_master (a / 100 / 12)
      (P * (a / 100 / 12) * (1 + a / 100 / 12) ^ n.toNat /
        ((1 + a / 100 / 12) ^ n.toNat - 1)) P n.toNat hnn hdec hfin
    exact ⟨by rw [scheduleAux_length]; exact hkn,
      H.2.1, H.2.2.1, H.2.2.2.1 hkpos, H.2.2.2.2⟩

/-- C2: for valid terms the schedule has exactly `termPeriods` rows, stored
balances are non-increasing and non-negative, and the last stored balance is
exactly zero. -/
theorem C2_schedule_shape (P a : ℚ) (n : ℤ) (rows : List Row)
    (hP : 0 ≤ P) (ha : 0 ≤ a) (hn : 0 < n)
    (hrows : amortization_schedule P a n = Except.ok rows) :
    (rows.length : ℤ) = n ∧
    List.Chain' (fun x y => y.balance ≤ x.balance) rows ∧
    (∀ row ∈ rows, 0 ≤ row.balance) ∧
    (rows.map Row.balance).getLast? = some 0 := by
  obtain ⟨h1, h2, h3, h4, _⟩ := schedule_ok_props P a n rows hP ha hn hrows
  exact ⟨h1, h2, h3, h4⟩

/-- Witness for C2 on a four-month interest-free loan of 100. -/
theorem C2_witness :
    (([⟨1, 25, 0, 25, 75⟩, ⟨2, 25, 0, 25, 50⟩, ⟨3, 25, 0, 25, 25⟩,
        ⟨4, 25, 0, 25, 0⟩] : List Row).length : ℤ) = 4 ∧
    (([⟨1, 25, 0, 25, 75⟩, ⟨2, 25, 0, 25, 50⟩, ⟨3, 25, 0, 25, 25⟩,
        ⟨4, 25, 0, 25, 0⟩] : List Row).map Row.balance).getLast? = some 0 ∧
    0 ≤ (⟨1, 25, 0, 25, 75⟩ : Row).balance := by
  have H := C2_schedule_shape 100 0 4
    [⟨1, 25, 0, 25, 75⟩, ⟨2, 25, 0, 25, 50⟩, ⟨3, 25, 0, 25, 25⟩, ⟨4, 25, 0, 25, 0⟩]
    (by norm_num) (by norm_num) (by norm_num)
    (by norm_num [amortization_schedule, monthly_payment, scheduleAux, round10,
      rne, Except.map])
  exact ⟨H.1, H.2.2.2, H.2.2.1 _ (List.mem_cons_self _ _)⟩

/-- C5: in every row of a successful schedule for valid terms, interest plus
principal equals the payment to within 1e-9. -/
theorem C5_payment_split (P a : ℚ) (n : ℤ) (rows : List Row)
    (hP : 0 ≤ P) (ha : 0 ≤ a) (hn : 0 < n)
    (hrows : amortization_schedule P a n = Except.ok rows) :
    ∀ row ∈ rows, |row.interest + row.principal - row.payment| ≤ 1 / 1000000000 := by
  intro row hrow
  unfold amortization_schedule at hrows
  cases hmp : monthly_payment P a n with
  | error e => rw [hmp] at hrows; cases hrows
  | ok pay =>
    rw [hmp] at hrows
    simp only [Except.map, Except.ok.injEq] at hrows
    subst hrows
    exact le_trans (scheduleAux_split _ _ _ _ _ row hrow) (by norm_num)

/-- Witness for C5 at a concrete one-row schedule. -/
theorem C5_witness :
    |(⟨1, 100, 0, 100, 0⟩ : Row).interest + (⟨1, 100, 0, 100, 0⟩ : Row).principal -
        (⟨1, 100, 0, 100, 0⟩ : Row).payment| ≤ 1 / 1000000000 :=
  C5_payment_split 100 0 1 [⟨1, 100, 0, 100, 0⟩] (by norm_num) (by norm_num)
    (by norm_num)
    (by norm_num [amortization_schedule, monthly_payment, scheduleAux, round10,
      rne, Except.map])
    ⟨1, 100, 0, 100, 0⟩ (List.mem_cons_self _ _)

/-- C6 (amended): for valid terms the principal portions sum to the principal
within `termPeriods` half-ulps, that is `termPeriods / 2e10`; this is below
1e-6 whenever `termPeriods ≤ 20000`. -/
theorem C6_principal_sum (P a : ℚ) (n : ℤ) (rows : List Row)
    (hP : 0 ≤ P) (ha : 0 ≤ a) (hn : 0 < n)
    (hrows : amortization_schedule P a n = Except.ok rows) :
    |(rows.map Row.principal).sum - P| ≤ (n : ℚ) / 20000000000 :=
  (schedule_ok_props P a n rows hP ha hn hrows).2.2.2.2

/-- Witness for C6 on a four-month interest-free loan of 100. -/
theorem C6_witness :
    |(([⟨1, 25, 0, 25, 75⟩, ⟨2, 25, 0, 25, 50⟩, ⟨3, 25, 0, 25, 25⟩,
        ⟨4, 25, 0, 25, 0⟩] : List Row).map Row.principal).sum - 100| ≤
      ((4 : ℤ) : ℚ) / 20000000000 :=
  C6_principal_sum 100 0 4
    [⟨1, 25, 0, 25, 75⟩, ⟨2, 25, 0, 25, 50⟩, ⟨3, 25, 0, 25, 25⟩, ⟨4, 25, 0, 25, 0⟩]
    (by norm_num) (by norm_num) (by norm_num)
    (by norm_num [amortization_schedule, monthly_payment, scheduleAux, round10,
      rne, Except.map])

/-- With a zero rate the clamp condition never fires for valid terms. -/
lemma rate_zero_noClamp (P : ℚ) (k : ℕ) (hP : 0 ≤ P) (hk : 0 < k) :
    ∀ j, j < k → P / (k : ℚ) - ebal 0 (P / (k : ℚ)) P j * 0 ≤ ebal 0 (P / (k : ℚ)) P j := by
  obtain ⟨hnn, hdec, hfin⟩ := pack_rate_zero P k hP hk
  intro j hj
  have h1 := hnn (j + 1) hj
  have h2 : ebal 0 (P / (k : ℚ)) P (j + 1)
      = ebal 0 (P / (k : ℚ)) P j * (1 + 0) - P / (k : ℚ) := rfl
  rw [h2] at h1
  have h3 : ebal 0 (P / (k : ℚ)) P j * (1 + 0) = ebal 0 (P / (k : ℚ)) P j := by ring
  rw [h3] at h1
  have h4 : ebal 0 (P / (k : ℚ)) P j * 0 = 0 := mul_zero _
  linarith

/-- C6 counterexample: a 40000-month interest-free loan of principal 2e-6 has
a per-month payment of 5e-11, which rounds to zero in every stored row, so
the stored principal portions sum to 0, further than 1e-6 from the
principal. -/
theorem C6_counterexample :
    principalSum (amortization_schedule (1 / 500000) 0 40000) = Except.ok 0 ∧
    ¬ (|(0 : ℚ) - 1 / 500000| ≤ 1 / 1000000) := by
  constructor
  · have hmp : monthly_payment (1 / 500000) 0 40000 = Except.ok (1 / 20000000000) := by
      rw [monthly_payment_rate_zero (1 / 500000) 40000 (by norm_num)]
      congr 1
      norm_num
    unfold principalSum
    rw [amortization_schedule_ok _ _ _ _ hmp]
    simp only [Except.map, Except.ok.injEq]
    have e1 : (0 : ℚ) / 100 / 12 = 0 := by norm_num
    have e2 : ((40000 : ℤ)).toNat = 40000 := rfl
    rw [e1, e2]
    have e3 : (1 : ℚ) / 20000000000 = (1 / 500000) / ((40000 : ℕ) : ℚ) := by norm_num
    rw [e3]
    rw [scheduleAux_noClamp 0 _ 40000 1 (1 / 500000)
      (rate_zero_noClamp (1 / 500000) 40000 (by norm_num) (by norm_num))]
    rw [List.map_map]
    have hmap : (List.range 40000).map
          (Row.principal ∘ fun (j : ℕ) =>
            (⟨1 + (j : ℤ),
              round10 ((1 / 500000) / ((40000 : ℕ) : ℚ)),
              round10 (ebal 0 ((1 / 500000) / ((40000 : ℕ) : ℚ)) (1 / 500000) j * 0),
              round10 ((1 / 500000) / ((40000 : ℕ) : ℚ) -
                ebal 0 ((1 / 500000) / ((40000 : ℕ) : ℚ)) (1 / 500000) j * 0),
              round10 (max (ebal 0 ((1 / 500000) / ((40000 : ℕ) : ℚ)) (1 / 500000) (j + 1)) 0)⟩ : Row)) =
        (List.range 40000).map (fun _ => (0 : ℚ)) := by
      apply List.map_congr_left
      intro j hj
      show round10 ((1 / 500000) / ((40000 : ℕ) : ℚ) -
        ebal 0 ((1 / 500000) / ((40000 : ℕ) : ℚ)) (1 / 500000) j * 0) = 0
      have harg : (1 / 500000 : ℚ) / ((40000 : ℕ) : ℚ) -
          ebal 0 ((1 / 500000) / ((40000 : ℕ) : ℚ)) (1 / 500000) j * 0 =
          1 / 20000000000 := by
        rw [mul_zero, sub_zero]
        push_cast
        norm_num
      rw [harg]
      norm_num [round10, rne]
    rw [hmap]
    exact List.sum_eq_zero (by
      intro x hx
      rw [List.mem_map] at hx
      obtain ⟨j, _, rfl⟩ := hx
      rfl)
  · rw [zero_sub, abs_neg, abs_of_nonneg (by norm_num : (0 : ℚ) ≤ 1 / 500000)]
    norm_num
